import Mathlib

/-!
# Verification of the Crafty Couple rewards punch ledger

The repository is a loyalty punch-card application: customers accrue one
punch per $10 spent and redeem discount tiers at 10/15/20 punches.  The
repository ships the React frontend (`LandingPage.jsx`,
`CustomerDashboard.jsx`, `AdminPanel.jsx`); the punch accounting and
redemption engine itself lives in a backend that is not part of the
source tree, so the engine operations (`signup`, `add_punch`, `redeem`,
`next_reward`) are modelled from the specification, while all frontend
logic (input validation, customer filtering, PIN gating, tier display,
progress clamping) is embedded directly from the JSX sources.

Amounts are modelled as integer cents — the fixed-point decimal
representation the spec's design notes (§9) require for money — so
$25.00 is the integer 2500 and $9.99 is 999.  Punch counters are
naturals and transaction punch deltas are integers.  The theorem for
claim C3 bridges the cents representation back to the spec's
`floor(amount / 10)` over true rationals.
-/

namespace CraftyRewards

/-- Reward tier configuration shown on every page of the frontend:
10 punches → 15% off, 15 punches → 20% off, 20 punches → 25% off. -/
structure TierInfo where
  threshold : Nat
  discount : Nat
deriving DecidableEq

/-- The three static tiers, in the ascending order the frontend renders
them (`CustomerDashboard.jsx` tier cards, `AdminPanel.jsx` redeem dialog). -/
def rewardTiers : List TierInfo := [⟨10, 15⟩, ⟨15, 20⟩, ⟨20, 25⟩]

/-- A customer record as described in the spec data model (§3):
opaque id, name, optional phone and email, a punch counter and a
cumulative spend accumulator. -/
structure Customer where
  id : Nat
  name : String
  phone : Option String
  email : Option String
  punches : Nat
  total_spent : ℤ
deriving DecidableEq

/-- Transaction kinds (spec §3). -/
inductive TxKind where
  | accrual
  | redemption
deriving DecidableEq

/-- A ledger transaction (spec §3): owning customer, kind, purchase
amount (zero for redemptions), signed punch delta, and the reward label
for redemptions. -/
structure Transaction where
  customer_id : Nat
  kind : TxKind
  amount : ℤ
  punches_delta : ℤ
  reward_label : Option String
deriving DecidableEq

/-- The error taxonomy of spec §7. -/
inductive EngineError where
  | InvalidInput
  | Conflict
  | NotFound
  | InvalidAmount
  | InvalidTier
  | InsufficientPunches
deriving DecidableEq

/-- Modelled from the spec: the Ledger Store (§2) — durable storage
keyed by customer id holding customer records and the append-only
transaction log.  `nextId` is the id assigned to the next signup. -/
structure LedgerState where
  nextId : Nat
  store : Nat → Option Customer
  transactions : List Transaction

/-- The empty store: no customers, no transactions. -/
def initState : LedgerState := ⟨0, fun _ => none, []⟩

/-- An optional contact field counts as absent when missing or empty. -/
def optEmpty : Option String → Bool
  | none => true
  | some s => s.isEmpty

/-- Phone uniqueness comparison: exact match when both present. -/
def phoneMatches : Option String → Option String → Bool
  | some x, some y => x == y
  | _, _ => false

/-- JavaScript `String.prototype.trim`: strip leading and trailing
whitespace (modelled directly over the character list). -/
def jsTrim (s : String) : String :=
  String.mk (((s.data.dropWhile Char.isWhitespace).reverse.dropWhile
    Char.isWhitespace).reverse)

/-- JavaScript `String.prototype.toLowerCase`: lowercase every character
(modelled directly over the character list). -/
def jsToLower (s : String) : String := String.mk (s.data.map Char.toLower)

/-- Email uniqueness comparison: case-insensitive when both present
(spec §3: unique across customers, case-insensitive for email). -/
def emailMatches : Option String → Option String → Bool
  | some x, some y => jsToLower x == jsToLower y
  | _, _ => false

/-- All customers currently in the store (ids are assigned from 0 up to
`nextId`, so scanning that range enumerates the store). -/
def existingCustomers (s : LedgerState) : List Customer :=
  (List.range s.nextId).filterMap s.store

/-- Modelled from the spec: `signup(name, phone?, email?)` (§4.1), the
Customer Directory creation operation absent from the shipped sources.
Fails with `InvalidInput` if the name is empty or both contacts are
empty/absent, with `Conflict` if the phone or email is already taken;
otherwise creates a customer with zero punches and zero spend. -/
def signup (s : LedgerState) (name : String) (phone email : Option String) :
    Except EngineError (LedgerState × Customer) :=
  if name.isEmpty || (optEmpty phone && optEmpty email) then
    .error .InvalidInput
  else if (existingCustomers s).any
      (fun c => phoneMatches c.phone phone || emailMatches c.email email) then
    .error .Conflict
  else
    let c : Customer := ⟨s.nextId, name, phone, email, 0, 0⟩
    .ok (⟨s.nextId + 1, fun i => if i = s.nextId then some c else s.store i,
          s.transactions⟩, c)

/-- One punch per full $10 of the purchase amount: with the amount in
cents, `floor(dollars / 10)` is the integer division by 1000 (the
bridge to the rational floor is proved below). -/
def punchesFor (amount : ℤ) : Nat := (amount / 1000).toNat

/-- Modelled from the spec: `add_punch(customer_id, amount)` (§4.2), the
Punch Accrual Engine operation absent from the shipped sources.  Rejects
amounts below $10 with `InvalidAmount` and unknown customers with
`NotFound`; otherwise adds `floor(amount/10)` punches, adds the amount to
`total_spent`, and appends an accrual transaction. -/
def add_punch (s : LedgerState) (cid : Nat) (amount : ℤ) :
    Except EngineError (LedgerState × Customer × Nat) :=
  if amount < 1000 then .error .InvalidAmount
  else
    match s.store cid with
    | none => .error .NotFound
    | some c =>
      let pa := punchesFor amount
      let c' : Customer :=
        { c with punches := c.punches + pa, total_spent := c.total_spent + amount }
      let tx : Transaction := ⟨cid, .accrual, amount, (pa : ℤ), none⟩
      .ok (⟨s.nextId, fun i => if i = cid then some c' else s.store i,
            s.transactions ++ [tx]⟩, c', pa)

/-- The reward label of each configured tier, `none` off-tier
(`AdminPanel.jsx` redeem dialog labels). -/
def tierLabel (tier : Nat) : Option String :=
  if tier = 10 then some "15% Off"
  else if tier = 15 then some "20% Off"
  else if tier = 20 then some "25% Off"
  else none

/-- Modelled from the spec: `redeem(customer_id, tier_threshold)` (§4.4),
the Redemption Engine operation absent from the shipped sources.  Rejects
unconfigured tiers with `InvalidTier`, unknown customers with `NotFound`,
and a balance below the tier with `InsufficientPunches`; otherwise
deducts the tier's punches (leaving `total_spent` untouched) and appends
a redemption transaction carrying the negated tier as its delta. -/
def redeem (s : LedgerState) (cid : Nat) (tier : Nat) :
    Except EngineError (LedgerState × Customer × String) :=
  match tierLabel tier with
  | none => .error .InvalidTier
  | some label =>
    match s.store cid with
    | none => .error .NotFound
    | some c =>
      if c.punches < tier then .error .InsufficientPunches
      else
        let c' : Customer := { c with punches := c.punches - tier }
        let tx : Transaction := ⟨cid, .redemption, 0, -(tier : ℤ), some label⟩
        .ok (⟨s.nextId, fun i => if i = cid then some c' else s.store i,
              s.transactions ++ [tx]⟩, c', label)

/-- The operations that reach the ledger. -/
inductive Op where
  | signupOp (name : String) (phone email : Option String)
  | addPunchOp (cid : Nat) (amount : ℤ)
  | redeemOp (cid : Nat) (tier : Nat)
deriving DecidableEq

/-- Apply one operation; a failed operation leaves the store unchanged
(spec §7: every operation returns a success or a named failure, and
failures mutate nothing). -/
def applyOp (s : LedgerState) : Op → LedgerState
  | .signupOp n p e =>
    match signup s n p e with
    | .ok (s', _) => s'
    | .error _ => s
  | .addPunchOp cid a =>
    match add_punch s cid a with
    | .ok (s', _, _) => s'
    | .error _ => s
  | .redeemOp cid t =>
    match redeem s cid t with
    | .ok (s', _, _) => s'
    | .error _ => s

/-- Run a history of operations from a starting state. -/
def runOps (s : LedgerState) (ops : List Op) : LedgerState :=
  ops.foldl applyOp s

/-- Sum of `punches_delta` over one customer's transactions. -/
def txSum (txs : List Transaction) (cid : Nat) : ℤ :=
  ((txs.filter (fun t => t.customer_id == cid)).map
    (fun t => t.punches_delta)).sum

/-- The ledger store invariant: ids at or above `nextId` are unassigned,
every transaction belongs to an already-assigned customer, and every
stored customer's punch counter equals the sum of that customer's
transaction deltas. -/
def LedgerInv (s : LedgerState) : Prop :=
  (∀ cid, s.nextId ≤ cid → s.store cid = none) ∧
  (∀ t ∈ s.transactions, t.customer_id < s.nextId) ∧
  (∀ cid c, s.store cid = some c → (c.punches : ℤ) = txSum s.transactions cid)

/-! ## Frontend embeddings

The definitions below are translated from the JSX sources under
`src/frontend/src/pages` (the presentation layer shipped with the
repository). -/

/-- `handleAddPunch` validation, `AdminPanel.jsx` lines 101-105: the
typed amount is parsed (`none` models a `NaN` parse) and rejected unless
it parses and is at least $10 (1000 cents). -/
def handleAddPunchAccepts : Option ℤ → Bool
  | none => false
  | some a => !(a < 1000 : Bool)

/-- JavaScript `String.prototype.includes`: the query's characters occur
contiguously inside the subject string. -/
def jsIncludes (s q : String) : Bool := decide (q.toList <:+: s.toList)

/-- The customer-list filter predicate of `AdminPanel.jsx` lines 147-151:
case-insensitive substring match on the name, exact substring match on
the phone when present, case-insensitive substring match on the email
when present. -/
def matchesQuery (c : Customer) (q : String) : Bool :=
  jsIncludes (jsToLower c.name) (jsToLower q) ||
    (match c.phone with
     | some p => jsIncludes p q
     | none => false) ||
    (match c.email with
     | some e => jsIncludes (jsToLower e) (jsToLower q)
     | none => false)

/-- `filteredCustomers` of `AdminPanel.jsx` line 147: the customers the
admin list displays for a given search query. -/
def filteredCustomers (customers : List Customer) (q : String) : List Customer :=
  customers.filter (fun c => matchesQuery c q)

/-- A tier card is tagged ready exactly when the punch count has reached
its threshold (`CustomerDashboard.jsx` tier cards, lines 204-277;
`AdminPanel.jsx` redeem buttons, lines 519-578). -/
def tierReady (punches : Nat) (t : TierInfo) : Bool := decide (t.threshold ≤ punches)

/-- The tiers displayed as redeemable for a punch count, in the fixed
ascending render order of the frontend. -/
def eligible_tiers (punches : Nat) : List TierInfo :=
  rewardTiers.filter (tierReady punches)

/-- The `next_reward` payload the dashboard consumes
(`CustomerDashboard.jsx` lines 150-167): either the next milestone with
the punches still needed, or a max-reached sentinel. -/
structure NextReward where
  max_reached : Bool
  threshold : Option Nat
  punches_needed : Option Nat
  discount : Option Nat
deriving DecidableEq

/-- Modelled from the spec: `next_reward(punches)` (§4.3), the Reward
Policy lookup absent from the shipped sources.  Returns the
lowest-threshold tier strictly above the punch count with
`punches_needed = threshold − punches`, or the max-reached sentinel once
the 20-punch tier is reached. -/
def next_reward (punches : Nat) : NextReward :=
  if punches < 10 then ⟨false, some 10, some (10 - punches), some 15⟩
  else if punches < 15 then ⟨false, some 15, some (15 - punches), some 20⟩
  else if punches < 20 then ⟨false, some 20, some (20 - punches), some 25⟩
  else ⟨true, none, none, none⟩

/-- `progressPercent` of `CustomerDashboard.jsx` line 63:
`Math.min((punches / 20) * 100, 100)`. -/
def progressPercent (punches : Nat) : ℚ :=
  min ((punches : Nat) / (20 : ℚ) * 100) 100

/-- The 20-circle punch grid of `CustomerDashboard.jsx` lines 108-131:
circle `i` is filled exactly when `i < punches`. -/
def punchGrid (punches : Nat) : List Bool :=
  (List.range 20).map (fun i => decide (i < punches))

/-- How many circles of the punch grid are filled. -/
def filledCount (punches : Nat) : Nat := (punchGrid punches).count true

/-- The signup form state of `LandingPage.jsx` (name, phone, email text
fields; empty string when untouched). -/
structure SignupForm where
  name : String
  phone : String
  email : String
deriving DecidableEq

/-- The signup request body `LandingPage.jsx` posts: trimmed name, and
each contact trimmed with the empty string sent as null. -/
structure SignupPayload where
  name : String
  phone : Option String
  email : Option String
deriving DecidableEq

/-- `handleSignup` of `LandingPage.jsx` lines 55-72: blocks the request
(`none`) when the trimmed name is empty or both trimmed contacts are
empty; otherwise posts the trimmed payload. -/
def handleSignup (f : SignupForm) : Option SignupPayload :=
  if (jsTrim f.name).isEmpty then none
  else if (jsTrim f.phone).isEmpty && (jsTrim f.email).isEmpty then none
  else some ⟨jsTrim f.name,
    if (jsTrim f.phone).isEmpty then none else some (jsTrim f.phone),
    if (jsTrim f.email).isEmpty then none else some (jsTrim f.email)⟩

/-! ## Admin panel authorization state machine

`AdminPanel.jsx` renders the PIN-entry screen while `isAuthenticated`
is false; the customer list, the add-transaction dialog and the redeem
dialog — the only places the mutating requests are issued — render only
once it is true, and it only becomes true when the backend validates
the submitted 4-digit PIN (`handlePinSubmit`, lines 50-66). -/

/-- The admin page UI state: the authentication flag and the PIN being
typed. -/
structure AdminUIState where
  isAuthenticated : Bool
  pin : List Char
deriving DecidableEq

/-- The initial admin page state: locked, empty PIN. -/
def initAdminUI : AdminUIState := ⟨false, []⟩

/-- User-interface events of `AdminPanel.jsx`.  `pinSubmit ok` carries
the backend's verdict on the submitted PIN; `addPunchClick` and
`redeemClick` are the clicks that issue the mutating requests. -/
inductive AdminEvent where
  | pinDigit (d : Char)
  | pinDelete
  | pinSubmit (serverOk : Bool)
  | logout
  | addPunchClick (cid : Nat) (amount : ℤ)
  | redeemClick (cid : Nat) (tier : Nat)
deriving DecidableEq

/-- The events that issue a mutating admin request. -/
def isMutation : AdminEvent → Bool
  | .addPunchClick _ _ => true
  | .redeemClick _ _ => true
  | _ => false

/-- One UI step of `AdminPanel.jsx`.  `none` means the control that
would fire the event is not rendered in the current state: the PIN pad
only exists on the lock screen, and the dialogs issuing mutations only
exist on the authenticated dashboard. -/
def adminStep (s : AdminUIState) : AdminEvent → Option AdminUIState
  | .pinDigit d =>
    if s.isAuthenticated then none
    else some { s with pin := if s.pin.length < 4 then s.pin ++ [d] else s.pin }
  | .pinDelete =>
    if s.isAuthenticated then none
    else some { s with pin := s.pin.dropLast }
  | .pinSubmit ok =>
    if s.isAuthenticated then none
    else if s.pin.length ≠ 4 then some s
    else if ok then some { s with isAuthenticated := true }
    else some { s with pin := [] }
  | .logout =>
    if s.isAuthenticated then some ⟨false, []⟩ else none
  | .addPunchClick _ _ =>
    if s.isAuthenticated then some s else none
  | .redeemClick _ _ =>
    if s.isAuthenticated then some s else none

/-- Run a sequence of UI events; `none` when some event was impossible
in the state it was attempted in. -/
def runEvents (s : AdminUIState) : List AdminEvent → Option AdminUIState
  | [] => some s
  | e :: es =>
    match adminStep s e with
    | none => none
    | some s' => runEvents s' es

/-! ## Reward policy theorems -/

/-- Helper: how many of the first `n` circle indices are below the punch
count. -/
lemma count_range_lt (p n : Nat) :
    ((List.range n).map (fun i => decide (i < p))).count true = min p n := by
  induction n with
  | zero => simp
  | succ n ih =>
    rw [List.range_succ, List.map_append, List.count_append]
    by_cases h : n < p
    · simp [h, ih]
      omega
    · simp [h, ih]
      omega

/-- C5: for every punch count below 20, `next_reward` returns the
lowest-threshold configured tier strictly above the count together with
`punches_needed = threshold − punches`; from 20 punches on it returns
the max-reached sentinel with no threshold; at 12 punches the next
reward is the 15-punch tier, 3 punches away. -/
theorem next_reward_spec :
    (∀ p, p < 20 →
      ∃ t, t ∈ rewardTiers ∧ p < t.threshold ∧
        (∀ t' ∈ rewardTiers, p < t'.threshold → t.threshold ≤ t'.threshold) ∧
        next_reward p = ⟨false, some t.threshold, some (t.threshold - p), some t.discount⟩) ∧
    (∀ p, 20 ≤ p → next_reward p = ⟨true, none, none, none⟩) ∧
    next_reward 12 = ⟨false, some 15, some 3, some 20⟩ := by
  refine ⟨?_, ?_, by decide⟩
  · intro p hp
    by_cases h10 : p < 10
    · refine ⟨⟨10, 15⟩, by decide, h10, ?_, by simp [next_reward, h10]⟩
      intro t' ht' hgt
      simp only [rewardTiers, List.mem_cons, List.not_mem_nil, or_false] at ht'
      rcases ht' with rfl | rfl | rfl <;> simp
    · by_cases h15 : p < 15
      · refine ⟨⟨15, 20⟩, by decide, h15, ?_, by simp [next_reward, h10, h15]⟩
        intro t' ht' hgt
        simp only [rewardTiers, List.mem_cons, List.not_mem_nil, or_false] at ht'
        rcases ht' with rfl | rfl | rfl <;> simp at hgt ⊢ <;> omega
      · refine ⟨⟨20, 25⟩, by decide, hp, ?_, by simp [next_reward, h10, h15, hp]⟩
        intro t' ht' hgt
        simp only [rewardTiers, List.mem_cons, List.not_mem_nil, or_false] at ht'
        rcases ht' with rfl | rfl | rfl <;> simp at hgt ⊢ <;> omega
  · intro p hp
    unfold next_reward
    rw [if_neg (by omega), if_neg (by omega), if_neg (by omega)]

/-- Witness for C5 at 12 punches: the next reward is the 15-punch tier,
3 punches short. -/
theorem next_reward_spec_witness :
    ∃ t, t ∈ CraftyRewards.rewardTiers ∧ 12 < t.threshold ∧
      (∀ t' ∈ CraftyRewards.rewardTiers, 12 < t'.threshold → t.threshold ≤ t'.threshold) ∧
      next_reward 12 = ⟨false, some t.threshold, some (t.threshold - 12), some t.discount⟩ :=
  next_reward_spec.1 12 (by decide)

/-- C7: the tiers displayed as ready are exactly the configured tiers
whose threshold the punch count has reached, they appear in strictly
ascending threshold order (10, 15, 20), and from 15 punches on at least
the 10- and the 15-punch tier are simultaneously eligible. -/
theorem eligible_tiers_spec :
    (∀ p t, t ∈ eligible_tiers p ↔ t ∈ rewardTiers ∧ t.threshold ≤ p) ∧
    (∀ p, (eligible_tiers p).Chain' (fun a b => a.threshold < b.threshold)) ∧
    (∀ p, 15 ≤ p →
      TierInfo.mk 10 15 ∈ eligible_tiers p ∧ TierInfo.mk 15 20 ∈ eligible_tiers p) := by
  refine ⟨?_, ?_, ?_⟩
  · intro p t
    simp [eligible_tiers, List.mem_filter, tierReady]
  · intro p
    have hpw : List.Pairwise (fun a b : TierInfo => a.threshold < b.threshold) rewardTiers := by
      decide
    exact (hpw.filter _).chain'
  · intro p hp
    constructor
    · simp only [eligible_tiers, rewardTiers, List.mem_filter, tierReady]
      refine ⟨by simp, by simp; omega⟩
    · simp only [eligible_tiers, rewardTiers, List.mem_filter, tierReady]
      refine ⟨by simp, by simp; omega⟩

/-- Witness for C7 at 16 punches: both the 10- and the 15-punch tier
are eligible at once. -/
theorem eligible_tiers_spec_witness :
    TierInfo.mk 10 15 ∈ eligible_tiers 16 ∧ TierInfo.mk 15 20 ∈ eligible_tiers 16 :=
  eligible_tiers_spec.2.2 16 (by decide)

/-- C10: the displayed progress fraction is `min(punches / 20 * 100, 100)`
and never exceeds 100%, the punch grid fills `min(punches, 20)` of its 20
circles (so at most 20), and any balance above 20 punches displays as the
full 100% / 20-circle card. -/
theorem progress_clamped :
    (∀ p : Nat, progressPercent p = min ((p : ℚ) / 20 * 100) 100) ∧
    (∀ p : Nat, progressPercent p ≤ 100) ∧
    (∀ p : Nat, filledCount p = min p 20) ∧
    (∀ p : Nat, filledCount p ≤ 20) ∧
    (∀ p : Nat, 20 ≤ p → progressPercent p = 100 ∧ filledCount p = 20) := by
  have hcount : ∀ p : Nat, filledCount p = min p 20 := by
    intro p
    simpa [filledCount, punchGrid] using count_range_lt p 20
  refine ⟨fun p => rfl, ?_, hcount, ?_, ?_⟩
  · intro p
    exact min_le_right _ _
  · intro p
    rw [hcount]
    exact min_le_right _ _
  · intro p hp
    have hq : (20 : ℚ) ≤ (p : ℚ) := by exact_mod_cast hp
    constructor
    · have h5 : (100 : ℚ) ≤ (p : ℚ) / 20 * 100 := by
        have : (p : ℚ) / 20 * 100 = (p : ℚ) * 5 := by ring
        rw [this]
        linarith
      simp [progressPercent, min_eq_right h5]
    · rw [hcount]
      omega

/-- Witness for C10 at 25 punches: the progress bar shows exactly 100%
and all 20 circles are filled. -/
theorem progress_clamped_witness :
    progressPercent 25 = 100 ∧ filledCount 25 = 20 :=
  progress_clamped.2.2.2.2 25 (by decide)

/-! ## Directory and admin-input theorems -/

/-- Helper: the admin list filter predicate holds exactly when the query
is a case-insensitive substring of the name, a substring of the phone,
or a case-insensitive substring of the email. -/
lemma matchesQuery_iff (c : Customer) (q : String) :
    matchesQuery c q = true ↔
      ((jsToLower q).toList <:+: (jsToLower c.name).toList ∨
       (∃ p, c.phone = some p ∧ q.toList <:+: p.toList) ∨
       (∃ e, c.email = some e ∧ (jsToLower q).toList <:+: (jsToLower e).toList)) := by
  rcases hph : c.phone with _ | p <;> rcases hem : c.email with _ | e <;>
    simp [matchesQuery, jsIncludes, hph, hem, or_assoc]

/-- C9: a stored customer is displayed in the admin list exactly when
the search query is a case-insensitive substring of the name, a
substring of the phone (when present), or a case-insensitive substring
of the email (when present); the empty query displays every customer. -/
theorem filtered_customers_spec :
    (∀ cs q c, c ∈ filteredCustomers cs q ↔ c ∈ cs ∧
      ((jsToLower q).toList <:+: (jsToLower c.name).toList ∨
       (∃ p, c.phone = some p ∧ q.toList <:+: p.toList) ∨
       (∃ e, c.email = some e ∧ (jsToLower q).toList <:+: (jsToLower e).toList))) ∧
    (∀ cs, filteredCustomers cs "" = cs) := by
  constructor
  · intro cs q c
    rw [filteredCustomers, List.mem_filter, matchesQuery_iff]
  · intro cs
    rw [filteredCustomers]
    apply List.filter_eq_self.mpr
    intro c _
    rw [matchesQuery_iff]
    left
    exact ⟨[], (jsToLower c.name).toList, by simp [jsToLower]⟩

/-- C8: the signup form blocks the request exactly when the trimmed name
is empty or both trimmed contacts are empty; the (spec-modelled)
directory fails with `InvalidInput` exactly on that same bad-input
condition; on bad input no customer is created; and a payload the form
does send can never make signup return `InvalidInput`. -/
theorem signup_invalid_input :
    (∀ f : SignupForm, handleSignup f = none ↔
      ((jsTrim f.name).isEmpty = true ∨
        ((jsTrim f.phone).isEmpty = true ∧ (jsTrim f.email).isEmpty = true))) ∧
    (∀ s name phone email,
      signup s name phone email = .error .InvalidInput ↔
        (name.isEmpty || (optEmpty phone && optEmpty email)) = true) ∧
    (∀ s name phone email,
      (name.isEmpty || (optEmpty phone && optEmpty email)) = true →
        applyOp s (Op.signupOp name phone email) = s) ∧
    (∀ s f payload, handleSignup f = some payload →
      signup s payload.name payload.phone payload.email ≠ .error .InvalidInput) := by
  have hengine : ∀ (s : LedgerState) (name : String) (phone email : Option String),
      signup s name phone email = .error .InvalidInput ↔
        (name.isEmpty || (optEmpty phone && optEmpty email)) = true := by
    intro s name phone email
    constructor
    · intro h
      by_contra hbad
      unfold signup at h
      rw [if_neg hbad] at h
      split_ifs at h with hconf <;> simp at h
    · intro h
      unfold signup
      rw [if_pos h]
  have hform : ∀ f payload, handleSignup f = some payload →
      (payload.name.isEmpty || (optEmpty payload.phone && optEmpty payload.email))
        = false := by
    intro f payload h
    unfold handleSignup at h
    split_ifs at h with h1 h2 hp he <;> simp_all [optEmpty] <;>
      subst h <;> simp_all [optEmpty]
  refine ⟨?_, hengine, ?_, ?_⟩
  · intro f
    unfold handleSignup
    split_ifs with h1 h2 <;> simp_all [Bool.and_eq_true]
  · intro s name phone email h
    have hs : signup s name phone email = .error .InvalidInput := by
      unfold signup
      rw [if_pos h]
    simp [applyOp, hs]
  · intro s f payload hf h
    have hbad := (hengine s payload.name payload.phone payload.email).mp h
    rw [hform f payload hf] at hbad
    cases hbad

/-- Witness for C8: an empty name (with a phone supplied) blocks the
form; the modelled directory rejects an all-empty signup with
`InvalidInput` and leaves the store untouched; and a payload the form
sends for a valid "Jane"/phone signup is never rejected as
`InvalidInput`. -/
theorem signup_invalid_input_witness :
    handleSignup ⟨"", "555-1111", ""⟩ = none ∧
    signup initState "" none none = .error .InvalidInput ∧
    applyOp initState (Op.signupOp "" none none) = initState ∧
    signup initState (SignupPayload.mk "Jane" (some "555-1111") none).name
      (SignupPayload.mk "Jane" (some "555-1111") none).phone
      (SignupPayload.mk "Jane" (some "555-1111") none).email ≠
        .error .InvalidInput :=
  ⟨(signup_invalid_input.1 ⟨"", "555-1111", ""⟩).mpr (Or.inl (by decide)),
   (signup_invalid_input.2.1 initState "" none none).mpr (by decide),
   signup_invalid_input.2.2.1 initState "" none none (by decide),
   signup_invalid_input.2.2.2 initState ⟨"Jane", "555-1111", ""⟩
     (SignupPayload.mk "Jane" (some "555-1111") none) (by decide)⟩

/-- C4: `add_punch` fails with `InvalidAmount` exactly on amounts below
$10.00 (1000 cents), the admin form accepts exactly the parsed amounts
of at least $10 (`none` models a `NaN` parse), and at the boundary $9.99
fails while $10.00 succeeds crediting exactly one punch. -/
theorem add_punch_invalid_amount :
    (∀ s cid amount, add_punch s cid amount = .error .InvalidAmount ↔ amount < 1000) ∧
    (∀ parsed : Option ℤ, handleAddPunchAccepts parsed = true ↔
      ∃ a, parsed = some a ∧ 1000 ≤ a) ∧
    (∀ s cid, add_punch s cid 999 = .error .InvalidAmount) ∧
    (∀ s cid c, s.store cid = some c →
      ∃ s', add_punch s cid 1000 =
        .ok (s', { c with punches := c.punches + 1,
                          total_spent := c.total_spent + 1000 }, 1)) := by
  refine ⟨?_, ?_, ?_, ?_⟩
  · intro s cid amount
    unfold add_punch
    by_cases h : amount < 1000
    · simp [h]
    · rw [if_neg h]
      cases hst : s.store cid <;> simp [h]
  · intro parsed
    cases parsed <;> simp [handleAddPunchAccepts, not_lt]
  · intro s cid
    unfold add_punch
    rw [if_pos (by omega)]
  · intro s cid c hst
    have h1 : punchesFor 1000 = 1 := by decide
    refine ⟨⟨s.nextId, fun i => if i = cid then
        some { c with punches := c.punches + 1, total_spent := c.total_spent + 1000 }
      else s.store i, s.transactions ++ [⟨cid, .accrual, 1000, ((1 : Nat) : ℤ), none⟩]⟩, ?_⟩
    unfold add_punch
    rw [if_neg (by omega), hst]
    simp only [h1]

/-- Witness for C4 at the boundary: on a store holding a fresh customer,
$9.99 is rejected with `InvalidAmount` and $10.00 credits exactly one
punch. -/
theorem add_punch_invalid_amount_witness :
    add_punch (runOps initState [Op.signupOp "Jane" (some "555-1111") none]) 0 999 =
      .error .InvalidAmount ∧
    (∃ s', add_punch (runOps initState [Op.signupOp "Jane" (some "555-1111") none]) 0 1000 =
      .ok (s', { Customer.mk 0 "Jane" (some "555-1111") none 0 0 with
                  punches := (Customer.mk 0 "Jane" (some "555-1111") none 0 0).punches + 1,
                  total_spent :=
                    (Customer.mk 0 "Jane" (some "555-1111") none 0 0).total_spent + 1000 },
            1)) :=
  ⟨add_punch_invalid_amount.2.2.1 _ 0,
   add_punch_invalid_amount.2.2.2 _ 0 (Customer.mk 0 "Jane" (some "555-1111") none 0 0)
     (by decide)⟩

/-! ## Accrual and redemption theorems -/

/-- C3: every successful accrual credits exactly `floor(amount / 10)`
punches — the integer division by $10 (1000 cents), which the third
conjunct identifies with the true rational floor of the dollar amount
divided by 10 — adds exactly the amount to `total_spent`, and records
exactly that delta in the appended transaction (no residue is banked);
accruals succeed on every accepted amount, and $25.00 credits exactly
2 punches. -/
theorem add_punch_accrual :
    (∀ s cid amount s' c' pa, add_punch s cid amount = .ok (s', c', pa) →
      ∃ c, s.store cid = some c ∧ 1000 ≤ amount ∧ pa = punchesFor amount ∧
        c'.punches = c.punches + punchesFor amount ∧
        c'.total_spent = c.total_spent + amount ∧
        s'.store cid = some c' ∧
        s'.transactions = s.transactions ++
          [⟨cid, .accrual, amount, (punchesFor amount : ℤ), none⟩]) ∧
    (∀ s cid c amount, s.store cid = some c → 1000 ≤ amount →
      ∃ s' c', add_punch s cid amount = .ok (s', c', punchesFor amount)) ∧
    (∀ amount : ℤ, 0 ≤ amount →
      (punchesFor amount : ℤ) = ⌊(amount : ℚ) / 100 / 10⌋) ∧
    punchesFor 2500 = 2 := by
  refine ⟨?_, ?_, ?_, by decide⟩
  · intro s cid amount s' c' pa h
    unfold add_punch at h
    by_cases hlt : amount < 1000
    · rw [if_pos hlt] at h
      cases h
    · rw [if_neg hlt] at h
      cases hst : s.store cid with
      | none =>
        rw [hst] at h
        cases h
      | some c =>
        rw [hst] at h
        simp only [Except.ok.injEq, Prod.mk.injEq] at h
        obtain ⟨rfl, rfl, rfl⟩ := h
        exact ⟨c, rfl, by omega, rfl, rfl, rfl, by simp, rfl⟩
  · intro s cid c amount hst hge
    unfold add_punch
    rw [if_neg (by omega), hst]
    exact ⟨_, _, rfl⟩
  · intro a h
    rw [div_div]
    have h1000 : ((100 : ℚ) * 10) = ((1000 : ℕ) : ℚ) := by norm_num
    rw [h1000, Rat.floor_intCast_div_natCast]
    have hnn : 0 ≤ a / (1000 : ℤ) := Int.ediv_nonneg h (by norm_num)
    simp only [punchesFor]
    omega

/-- Witness for C3: on a store holding a fresh customer, a $25.00
accrual succeeds and credits exactly `punchesFor 2500 = 2` punches. -/
theorem add_punch_accrual_witness :
    ∃ s' c', add_punch (runOps initState [Op.signupOp "Jane" (some "555-1111") none])
      0 2500 = .ok (s', c', punchesFor 2500) :=
  add_punch_accrual.2.1 _ 0 (Customer.mk 0 "Jane" (some "555-1111") none 0 0) 2500
    (by decide) (by decide)

/-- C2: for every configured tier, redemption fails with
`InsufficientPunches` whenever the balance is below the tier; every
successful redemption starts from a balance at least the tier and
removes exactly the tier (so the balance never drops below zero); and
concretely, a fresh customer credited $25 holds 2 punches, a 10-punch
redemption then fails with `InsufficientPunches`, and the balance stays
at 2. -/
theorem redeem_insufficient_punches :
    (∀ s cid c tier, s.store cid = some c → tier ∈ ([10, 15, 20] : List Nat) →
      c.punches < tier → redeem s cid tier = .error .InsufficientPunches) ∧
    (∀ s cid tier s' c' label, redeem s cid tier = .ok (s', c', label) →
      ∃ c, s.store cid = some c ∧ tier ≤ c.punches ∧ c'.punches + tier = c.punches) ∧
    ((runOps initState [Op.signupOp "Jane" (some "555-1111") none,
        Op.addPunchOp 0 2500]).store 0 =
      some (Customer.mk 0 "Jane" (some "555-1111") none 2 2500) ∧
     redeem (runOps initState [Op.signupOp "Jane" (some "555-1111") none,
        Op.addPunchOp 0 2500]) 0 10 = .error .InsufficientPunches ∧
     (applyOp (runOps initState [Op.signupOp "Jane" (some "555-1111") none,
        Op.addPunchOp 0 2500]) (Op.redeemOp 0 10)).store 0 =
      some (Customer.mk 0 "Jane" (some "555-1111") none 2 2500)) := by
  refine ⟨?_, ?_, by decide, rfl, by decide⟩
  · intro s cid c tier hst htier hlt
    simp only [List.mem_cons, List.not_mem_nil, or_false] at htier
    have hl : ∃ label, tierLabel tier = some label := by
      rcases htier with rfl | rfl | rfl <;> exact ⟨_, rfl⟩
    obtain ⟨label, hl⟩ := hl
    simp [redeem, hl, hst, hlt]
  · intro s cid tier s' c' label h
    unfold redeem at h
    split at h
    · cases h
    · split at h
      · cases h
      · split at h
        · cases h
        · simp only [Except.ok.injEq, Prod.mk.injEq] at h
          obtain ⟨rfl, rfl, rfl⟩ := h
          rename_i c hst hge
          refine ⟨c, hst, by omega, ?_⟩
          show c.punches - tier + tier = c.punches
          omega

/-- Witness for C2: at the concrete 2-punch state, a 15-punch
redemption also fails with `InsufficientPunches`. -/
theorem redeem_insufficient_punches_witness :
    redeem (runOps initState [Op.signupOp "Jane" (some "555-1111") none,
      Op.addPunchOp 0 2500]) 0 15 = .error .InsufficientPunches :=
  redeem_insufficient_punches.1 _ 0
    (Customer.mk 0 "Jane" (some "555-1111") none 2 2500) 15
    (by decide) (by decide) (by decide)

/-! ## Authorization-before-mutation (admin panel state machine) -/

/-- Helper: running a concatenation of event lists is running them in
sequence. -/
lemma runEvents_append (s : AdminUIState) (xs ys : List AdminEvent) :
    runEvents s (xs ++ ys) = (runEvents s xs).bind (fun s' => runEvents s' ys) := by
  induction xs generalizing s with
  | nil => rfl
  | cons e es ih =>
    simp only [List.cons_append, runEvents]
    cases adminStep s e with
    | none => rfl
    | some s' => exact ih s'

/-- Helper: a single UI step only turns the authentication flag on via a
server-validated PIN submission. -/
lemma step_auth (s s' : AdminUIState) (e : AdminEvent)
    (h : adminStep s e = some s') (ha : s'.isAuthenticated = true) :
    s.isAuthenticated = true ∨ e = .pinSubmit true := by
  cases e <;> simp only [adminStep] at h <;> split_ifs at h <;>
    (try exact Option.noConfusion h) <;>
    simp only [Option.some.injEq] at h <;> subst h <;> simp_all

/-- Helper: authentication at the end of a run either held at the start
or some server-validated PIN submission occurred along the way. -/
lemma runEvents_auth (evts : List AdminEvent) (s0 s1 : AdminUIState)
    (h : runEvents s0 evts = some s1) (ha : s1.isAuthenticated = true) :
    s0.isAuthenticated = true ∨ AdminEvent.pinSubmit true ∈ evts := by
  induction evts generalizing s0 with
  | nil =>
    simp only [runEvents, Option.some.injEq] at h
    subst h
    exact Or.inl ha
  | cons e es ih =>
    simp only [runEvents] at h
    cases hstep : adminStep s0 e with
    | none =>
      rw [hstep] at h
      cases h
    | some s' =>
      rw [hstep] at h
      rcases ih s' h with hauth | hmem
      · rcases step_auth s0 s' e hstep hauth with h0 | he
        · exact Or.inl h0
        · subst he
          exact Or.inr (List.mem_cons_self _ _)
      · exact Or.inr (List.mem_cons_of_mem _ hmem)

/-- Helper: mutation clicks only exist on the authenticated dashboard. -/
lemma step_mutation (s s' : AdminUIState) (e : AdminEvent)
    (hm : isMutation e = true) (h : adminStep s e = some s') :
    s.isAuthenticated = true := by
  cases e with
  | pinDigit d => simp [isMutation] at hm
  | pinDelete => simp [isMutation] at hm
  | pinSubmit ok => simp [isMutation] at hm
  | logout => simp [isMutation] at hm
  | addPunchClick cid a =>
    simp only [adminStep] at h
    split_ifs at h with hA
    exact hA
  | redeemClick cid t =>
    simp only [adminStep] at h
    split_ifs at h with hA
    exact hA

/-- C6: in every realizable event sequence of the admin page, a mutating
request (add-punch or redeem click) is always preceded by a PIN
submission the backend validated: no mutation is ever issued from the
locked screen. -/
theorem admin_auth_before_mutation :
    ∀ pre e post s, runEvents initAdminUI (pre ++ e :: post) = some s →
      isMutation e = true → AdminEvent.pinSubmit true ∈ pre := by
  intro pre e post s h hm
  rw [runEvents_append] at h
  cases hpre : runEvents initAdminUI pre with
  | none =>
    rw [hpre] at h
    cases h
  | some sp =>
    rw [hpre] at h
    simp only [Option.bind] at h
    simp only [runEvents] at h
    cases hstep : adminStep sp e with
    | none =>
      rw [hstep] at h
      cases h
    | some sp' =>
      have hA : sp.isAuthenticated = true := step_mutation sp sp' e hm hstep
      rcases runEvents_auth pre initAdminUI sp hpre hA with h0 | hmem
      · simp [initAdminUI] at h0
      · exact hmem

/-- Witness for C6: in the trace that types the PIN, submits it
successfully and then clicks redeem, the mutation is indeed preceded by
the validated submission. -/
theorem admin_auth_before_mutation_witness :
    AdminEvent.pinSubmit true ∈
      ([.pinDigit '1', .pinDigit '2', .pinDigit '3', .pinDigit '4',
        .pinSubmit true] : List AdminEvent) :=
  admin_auth_before_mutation
    [.pinDigit '1', .pinDigit '2', .pinDigit '3', .pinDigit '4', .pinSubmit true]
    (.redeemClick 0 10) [] ⟨true, ['1', '2', '3', '4']⟩ (by decide) rfl

/-! ## Ledger consistency -/

/-- Helper: appending a transaction of the same customer adds its delta
to that customer's ledger sum. -/
lemma txSum_append_self (txs : List Transaction) (cid : Nat) (k : TxKind)
    (am d : ℤ) (rl : Option String) :
    txSum (txs ++ [⟨cid, k, am, d, rl⟩]) cid = txSum txs cid + d := by
  simp [txSum, List.filter_append]

/-- Helper: appending another customer's transaction leaves the ledger
sum unchanged. -/
lemma txSum_append_other (txs : List Transaction) (cid j : Nat) (k : TxKind)
    (am d : ℤ) (rl : Option String) (h : j ≠ cid) :
    txSum (txs ++ [⟨cid, k, am, d, rl⟩]) j = txSum txs j := by
  simp [txSum, List.filter_append, Ne.symm h]

/-- Helper: a customer with no transactions has ledger sum zero. -/
lemma txSum_eq_zero (txs : List Transaction) (cid : Nat)
    (h : ∀ t ∈ txs, t.customer_id ≠ cid) : txSum txs cid = 0 := by
  have hnil : txs.filter (fun t => t.customer_id == cid) = [] := by
    rw [List.filter_eq_nil]
    intro t ht
    simp [h t ht]
  rw [txSum, hnil]
  rfl

/-- Helper: what a successful signup produces. -/
lemma signup_ok (s : LedgerState) (n : String) (p e : Option String)
    (s' : LedgerState) (c : Customer) (h : signup s n p e = .ok (s', c)) :
    c = ⟨s.nextId, n, p, e, 0, 0⟩ ∧ s'.nextId = s.nextId + 1 ∧
    s'.transactions = s.transactions ∧
    (∀ i, s'.store i = if i = s.nextId then some c else s.store i) := by
  unfold signup at h
  split_ifs at h with h1 h2
  simp only [Except.ok.injEq, Prod.mk.injEq] at h
  obtain ⟨rfl, rfl⟩ := h
  exact ⟨rfl, rfl, rfl, fun i => rfl⟩

/-- Helper: what a successful accrual produces. -/
lemma add_punch_ok (s : LedgerState) (cid : Nat) (amount : ℤ)
    (s' : LedgerState) (c' : Customer) (pa : Nat)
    (h : add_punch s cid amount = .ok (s', c', pa)) :
    ∃ c, s.store cid = some c ∧ pa = punchesFor amount ∧
      c' = { c with punches := c.punches + punchesFor amount,
                    total_spent := c.total_spent + amount } ∧
      s'.nextId = s.nextId ∧
      s'.transactions = s.transactions ++
        [⟨cid, .accrual, amount, (punchesFor amount : ℤ), none⟩] ∧
      (∀ i, s'.store i = if i = cid then some c' else s.store i) := by
  unfold add_punch at h
  split_ifs at h with hlt
  cases hst : s.store cid with
  | none =>
    rw [hst] at h
    cases h
  | some c =>
    rw [hst] at h
    simp only [Except.ok.injEq, Prod.mk.injEq] at h
    obtain ⟨rfl, rfl, rfl⟩ := h
    exact ⟨c, rfl, rfl, rfl, rfl, rfl, fun i => rfl⟩

/-- Helper: what a successful redemption produces. -/
lemma redeem_ok (s : LedgerState) (cid tier : Nat)
    (s' : LedgerState) (c' : Customer) (label : String)
    (h : redeem s cid tier = .ok (s', c', label)) :
    ∃ c, s.store cid = some c ∧ tier ≤ c.punches ∧
      c' = { c with punches := c.punches - tier } ∧
      s'.nextId = s.nextId ∧
      s'.transactions = s.transactions ++
        [⟨cid, .redemption, 0, -(tier : ℤ), some label⟩] ∧
      (∀ i, s'.store i = if i = cid then some c' else s.store i) := by
  unfold redeem at h
  split at h
  · cases h
  · split at h
    · cases h
    · split at h
      · cases h
      · simp only [Except.ok.injEq, Prod.mk.injEq] at h
        obtain ⟨rfl, rfl, rfl⟩ := h
        rename_i c hst hge
        exact ⟨c, hst, by omega, rfl, rfl, rfl, fun i => rfl⟩

/-- Helper: the empty store satisfies the ledger invariant. -/
lemma ledgerInv_init : LedgerInv initState :=
  ⟨fun _ _ => rfl, fun t ht => absurd ht (List.not_mem_nil t),
   fun _ c hc => Option.noConfusion hc⟩

/-- Helper: every operation preserves the ledger invariant. -/
lemma ledgerInv_applyOp (s : LedgerState) (o : Op) (h : LedgerInv s) :
    LedgerInv (applyOp s o) := by
  obtain ⟨h1, h2, h3⟩ := h
  cases o with
  | signupOp n p e =>
    simp only [applyOp]
    cases hres : signup s n p e with
    | error _ => exact ⟨h1, h2, h3⟩
    | ok pr =>
      obtain ⟨s', c⟩ := pr
      obtain ⟨hc, hnext, htxs, hstore⟩ := signup_ok s n p e s' c hres
      refine ⟨?_, ?_, ?_⟩
      · intro j hj
        rw [hnext] at hj
        rw [hstore j, if_neg (by omega)]
        exact h1 j (by omega)
      · intro t ht
        rw [htxs] at ht
        rw [hnext]
        exact Nat.lt_succ_of_lt (h2 t ht)
      · intro j c0 hc0
        rw [hstore j] at hc0
        rw [htxs]
        by_cases hj : j = s.nextId
        · rw [if_pos hj] at hc0
          simp only [Option.some.injEq] at hc0
          subst hc0
          rw [hc]
          rw [txSum_eq_zero s.transactions j (fun t ht => by have := h2 t ht; omega)]
          rfl
        · rw [if_neg hj] at hc0
          exact h3 j c0 hc0
  | addPunchOp cid a =>
    simp only [applyOp]
    cases hres : add_punch s cid a with
    | error _ => exact ⟨h1, h2, h3⟩
    | ok pr =>
      obtain ⟨s', c', pa⟩ := pr
      obtain ⟨c, hst, hpa, hc', hnext, htxs, hstore⟩ := add_punch_ok s cid a s' c' pa hres
      have hcidlt : cid < s.nextId := by
        by_contra hge
        rw [h1 cid (by omega)] at hst
        exact Option.noConfusion hst
      refine ⟨?_, ?_, ?_⟩
      · intro j hj
        rw [hnext] at hj
        rw [hstore j, if_neg (by omega)]
        exact h1 j hj
      · intro t ht
        rw [htxs] at ht
        rw [hnext]
        rcases List.mem_append.mp ht with hin | hin
        · exact h2 t hin
        · rw [List.mem_singleton] at hin
          subst hin
          exact hcidlt
      · intro j c0 hc0
        rw [hstore j] at hc0
        rw [htxs]
        by_cases hj : j = cid
        · subst hj
          rw [if_pos rfl] at hc0
          simp only [Option.some.injEq] at hc0
          subst hc0
          rw [txSum_append_self]
          have hc3 := h3 j c hst
          rw [hc']
          show ((c.punches + punchesFor a : ℕ) : ℤ) = txSum s.transactions j + (punchesFor a : ℤ)
          omega
        · rw [if_neg hj] at hc0
          rw [txSum_append_other s.transactions cid j _ _ _ _ hj]
          exact h3 j c0 hc0
  | redeemOp cid tier =>
    simp only [applyOp]
    cases hres : redeem s cid tier with
    | error _ => exact ⟨h1, h2, h3⟩
    | ok pr =>
      obtain ⟨s', c', label⟩ := pr
      obtain ⟨c, hst, hge, hc', hnext, htxs, hstore⟩ := redeem_ok s cid tier s' c' label hres
      have hcidlt : cid < s.nextId := by
        by_contra hnge
        rw [h1 cid (by omega)] at hst
        exact Option.noConfusion hst
      refine ⟨?_, ?_, ?_⟩
      · intro j hj
        rw [hnext] at hj
        rw [hstore j, if_neg (by omega)]
        exact h1 j hj
      · intro t ht
        rw [htxs] at ht
        rw [hnext]
        rcases List.mem_append.mp ht with hin | hin
        · exact h2 t hin
        · rw [List.mem_singleton] at hin
          subst hin
          exact hcidlt
      · intro j c0 hc0
        rw [hstore j] at hc0
        rw [htxs]
        by_cases hj : j = cid
        · subst hj
          rw [if_pos rfl] at hc0
          simp only [Option.some.injEq] at hc0
          subst hc0
          rw [txSum_append_self]
          have hc3 := h3 j c hst
          rw [hc']
          show ((c.punches - tier : ℕ) : ℤ) = txSum s.transactions j + -(tier : ℤ)
          omega
        · rw [if_neg hj] at hc0
          rw [txSum_append_other s.transactions cid j _ _ _ _ hj]
          exact h3 j c0 hc0

/-- Helper: the ledger invariant holds in every reachable state. -/
lemma ledgerInv_runOps (ops : List Op) (s : LedgerState) (h : LedgerInv s) :
    LedgerInv (runOps s ops) := by
  induction ops generalizing s with
  | nil => exact h
  | cons o os ih => exact ih (applyOp s o) (ledgerInv_applyOp s o h)

/-- C1: in every state reachable by any operation history, every stored
customer's punch counter equals the sum of `punches_delta` over that
customer's transactions, and every operation only ever appends to the
transaction log (its old log is a prefix of the new one). -/
theorem ledger_consistency :
    (∀ ops cid c, (runOps initState ops).store cid = some c →
      (c.punches : ℤ) = txSum (runOps initState ops).transactions cid) ∧
    (∀ s o, (applyOp s o).transactions = s.transactions ∨
      ∃ t, (applyOp s o).transactions = s.transactions ++ [t]) := by
  constructor
  · intro ops cid c hc
    exact (ledgerInv_runOps ops initState ledgerInv_init).2.2 cid c hc
  · intro s o
    cases o with
    | signupOp n p e =>
      simp only [applyOp]
      cases hres : signup s n p e with
      | error _ => exact Or.inl rfl
      | ok pr =>
        obtain ⟨s', c⟩ := pr
        obtain ⟨_, _, htxs, _⟩ := signup_ok s n p e s' c hres
        exact Or.inl htxs
    | addPunchOp cid a =>
      simp only [applyOp]
      cases hres : add_punch s cid a with
      | error _ => exact Or.inl rfl
      | ok pr =>
        obtain ⟨s', c', pa⟩ := pr
        obtain ⟨c, _, _, _, _, htxs, _⟩ := add_punch_ok s cid a s' c' pa hres
        exact Or.inr ⟨_, htxs⟩
    | redeemOp cid tier =>
      simp only [applyOp]
      cases hres : redeem s cid tier with
      | error _ => exact Or.inl rfl
      | ok pr =>
        obtain ⟨s', c', label⟩ := pr
        obtain ⟨c, _, _, _, _, htxs, _⟩ := redeem_ok s cid tier s' c' label hres
        exact Or.inr ⟨_, htxs⟩

/-- Witness for C1: after a signup and a $25 accrual, the stored
2-punch balance equals the transaction-delta sum of customer 0. -/
theorem ledger_consistency_witness :
    (((Customer.mk 0 "Jane" (some "555-1111") none 2 2500).punches : ℕ) : ℤ) =
      txSum (runOps initState [Op.signupOp "Jane" (some "555-1111") none,
        Op.addPunchOp 0 2500]).transactions 0 :=
  ledger_consistency.1 [Op.signupOp "Jane" (some "555-1111") none, Op.addPunchOp 0 2500]
    0 (Customer.mk 0 "Jane" (some "555-1111") none 2 2500) (by decide)

end CraftyRewards
